import Mathlib

/-!
# A verification development for the pulsar scripting language

This file gives a shallow embedding of the pulsar front end and evaluator
(`src/token.rs`, `src/ast.rs`, `src/interpreter.rs`, `src/parser.rs`) and
settles a list of claims about it.

Modelling conventions:
* Rust `i64` arithmetic is modelled on `Int` with explicit two's-complement
  wrapping (`wrap64`) for `+ - *` (release-mode semantics) and explicit
  host-level aborts for integer division by zero and `i64::MIN / -1`.
* Rust `f64` is modelled by Lean `Float`.
* A host-level `panic!`/`todo!()`/arithmetic trap is the `EvalRes.abort`
  constructor; a `RuntimeError` value is `EvalRes.err`.
* `&mut Environment` threading is modelled by returning the updated
  environment alongside the result.
* The `HashMap<String, KoxValue>` of `Environment.venv` is modelled as an
  insertion-ordered association list (`insert` replaces in place).  The
  run-varying iteration order of `HashMap::keys()` (used by
  `KoxFunction::call` to bind arguments) is abstracted as an oracle
  parameter `ko : KO`; a `ko` is faithful to the Rust map when it returns a
  permutation of the stored keys (`ValidKO`).
* General recursion through function calls is bounded by fuel; every
  recursive call of the evaluator and of the parser decrements the fuel,
  and running out of fuel is the distinguished result `fuelOut` / `out`.
-/

/-! ## Tokens (`src/token.rs`) -/

inductive Token where
  | ident : String → Token
  | int : Int → Token
  | float : Float → Token
  | str : String → Token
  | illegal : String → Token
  | eof | eq | plus | minus | bang | asterisk | slash | pow
  | lessThan | greaterThan | lessThanEqual | greaterThanEqual
  | eqEq | bangEq | comma | semicolon | lparen | rparen | lbrace | rbrace
  | functionK | letK | trueK | falseK | ifK | elseK | returnK | forK | inK
deriving Repr

/-- The string `{:?}` (derived `Debug`) produces for a token. -/
def Token.debugStr : Token → String
  | .ident s => "Ident(\x22" ++ s ++ "\x22)"
  | .int i => "Int(" ++ toString i ++ ")"
  | .float f => "Float(" ++ toString f ++ ")"
  | .str s => "String(\x22" ++ s ++ "\x22)"
  | .illegal s => "Illegal(\x22" ++ s ++ "\x22)"
  | .eof => "Eof"
  | .eq => "Eq"
  | .plus => "Plus"
  | .minus => "Minus"
  | .bang => "Bang"
  | .asterisk => "Asterisk"
  | .slash => "Slash"
  | .pow => "Pow"
  | .lessThan => "LessThan"
  | .greaterThan => "GreaterThan"
  | .lessThanEqual => "LessThanEqual"
  | .greaterThanEqual => "GreaterThanEqual"
  | .eqEq => "EqEq"
  | .bangEq => "BangEq"
  | .comma => "Comma"
  | .semicolon => "Semicolon"
  | .lparen => "LParen"
  | .rparen => "RParen"
  | .lbrace => "LBrace"
  | .rbrace => "RBrace"
  | .functionK => "Function"
  | .letK => "Let"
  | .trueK => "True"
  | .falseK => "False"
  | .ifK => "If"
  | .elseK => "Else"
  | .returnK => "Return"
  | .forK => "For"
  | .inK => "In"

/-- Derived `PartialEq` on `Token` (`==` in the parser).  `f64` payloads
compare by IEEE equality, as in Rust. -/
def tokenEq : Token → Token → Bool
  | .ident a, .ident b => a == b
  | .int a, .int b => a == b
  | .float a, .float b => a == b
  | .str a, .str b => a == b
  | .illegal a, .illegal b => a == b
  | .eof, .eof => true
  | .eq, .eq => true
  | .plus, .plus => true
  | .minus, .minus => true
  | .bang, .bang => true
  | .asterisk, .asterisk => true
  | .slash, .slash => true
  | .pow, .pow => true
  | .lessThan, .lessThan => true
  | .greaterThan, .greaterThan => true
  | .lessThanEqual, .lessThanEqual => true
  | .greaterThanEqual, .greaterThanEqual => true
  | .eqEq, .eqEq => true
  | .bangEq, .bangEq => true
  | .comma, .comma => true
  | .semicolon, .semicolon => true
  | .lparen, .lparen => true
  | .rparen, .rparen => true
  | .lbrace, .lbrace => true
  | .rbrace, .rbrace => true
  | .functionK, .functionK => true
  | .letK, .letK => true
  | .trueK, .trueK => true
  | .falseK, .falseK => true
  | .ifK, .ifK => true
  | .elseK, .elseK => true
  | .returnK, .returnK => true
  | .forK, .forK => true
  | .inK, .inK => true
  | _, _ => false

/-! ## The AST (`src/ast.rs`) -/

inductive Value where
  | int : Int → Value
  | float : Float → Value
  | str : String → Value
  | boolean : Bool → Value
  | nil : Value
deriving Repr

inductive Expression where
  | binary (left : Expression) (operator : Token) (right : Expression)
      (line column : Nat)
  | call (function : Expression) (arguments : List Expression)
      (line column : Nat)
  | identifier (ident : String) (line column : Nat)
  | assign (name : String) (value : Expression) (line column : Nat)
  | value (value : Value) (line column : Nat)
  | letE (name : String) (value : Expression) (line column : Nat)
  | ret (value : Expression) (line column : Nat)
  | block (expressions : List Expression) (line column : Nat)
  | ifE (condition : Expression) (consequence : Expression)
      (alternative : Option Expression) (line column : Nat)
  | function (name : String) (parameters : List String) (body : Expression)
      (line column : Nat)
  | forE (ident : String) (expr : Expression) (body : Expression)
      (line column : Nat)
deriving Repr

/-! ## Runtime values and environments (`src/interpreter.rs`) -/

structure RuntimeError where
  message : String
  line : Nat
  column : Nat
deriving Repr, DecidableEq

/-- The distinct host-level aborts (`panic!`) the interpreter can hit. -/
inductive PanicKind where
  | divByZero        -- `left / right` with an `i64` right operand of 0
  | intOverflow      -- `i64::MIN / -1`
  | forTodo          -- the `todo!()` in the `Expression::For` arm
  | assignNonIdentifier  -- the `panic!` branch of `Environment::assign`
  | nativeIndex      -- `args[0]` out of bounds in a native function
deriving Repr, DecidableEq

/-- The native functions that exist (`Interpreter::new` installs `print`). -/
inductive NativeImpl where
  | print
deriving Repr, DecidableEq

mutual
inductive KoxValue where
  | int : Int → KoxValue
  | float : Float → KoxValue
  | str : String → KoxValue
  | boolean : Bool → KoxValue
  | nil : KoxValue
  | nativeFunction (arity : Nat) (impl : NativeImpl) : KoxValue
  | koxFunction (arity : Nat) (body : Expression) (closure : Environment) :
      KoxValue
  | ret : KoxValue → KoxValue

inductive Environment where
  | mk (enclosing : Option Environment)
      (venv : List (String × KoxValue)) : Environment
end

inductive EvalRes where
  | ok : KoxValue → EvalRes
  | err : RuntimeError → EvalRes
  | abort : PanicKind → EvalRes
  | fuelOut : EvalRes

/-- `mem::discriminant` on `KoxValue`. -/
def KoxValue.tag : KoxValue → Nat
  | .int _ => 0
  | .float _ => 1
  | .str _ => 2
  | .boolean _ => 3
  | .nil => 4
  | .nativeFunction .. => 5
  | .koxFunction .. => 6
  | .ret _ => 7

/-- The `Display` rendering of a runtime value. -/
def KoxValue.display : KoxValue → String
  | .int i => toString i
  | .float f => toString f
  | .str s => s
  | .boolean b => if b then "true" else "false"
  | .nil => "nil"
  | .nativeFunction .. => "<native function>"
  | .koxFunction .. => "<function>"
  | .ret v => v.display

def NativeImpl.run : NativeImpl → List KoxValue → EvalRes
  | .print, _ :: _ => .ok .nil      -- the println side effect is dropped
  | .print, [] => .abort .nativeIndex

def Environment.venv : Environment → List (String × KoxValue)
  | .mk _ v => v

def Environment.enclosing : Environment → Option Environment
  | .mk e _ => e

/-- `Environment::child`: the enclosing environment is a *clone* of the
parent (`self.clone()`), which a pure value copy models exactly. -/
def Environment.child (env : Environment) : Environment := .mk (some env) []

/-- `HashMap::get` on the association-list model. -/
def lookupVenv : List (String × KoxValue) → String → Option KoxValue
  | [], _ => none
  | (k, v) :: rest, n => if k = n then some v else lookupVenv rest n

/-- `HashMap::insert`: replace an existing key in place, else add. -/
def upsert : List (String × KoxValue) → String → KoxValue →
    List (String × KoxValue)
  | [], n, v => [(n, v)]
  | (k, w) :: rest, n, v =>
      if k = n then (n, v) :: rest else (k, w) :: upsert rest n v

def Environment.insert : Environment → String → KoxValue → Environment
  | .mk enc v, n, val => .mk enc (upsert v n val)

def Environment.get : Environment → String → Option KoxValue
  | .mk none v, n => lookupVenv v n
  | .mk (some e) v, n =>
      match lookupVenv v n with
      | some val => some val
      | none => e.get n

/-- `Environment::assign`.  The non-`Identifier` branch is the `panic!`. -/
def Environment.assign : Environment → Expression → KoxValue →
    EvalRes × Environment
  | .mk enc venv, .identifier name line column, value =>
      if (lookupVenv venv name).isSome then
        (.ok value, .mk enc (upsert venv name value))
      else
        match enc with
        | some e =>
            let r := Environment.assign e (.identifier name line column) value
            (r.1, .mk (some r.2) venv)
        | none =>
            (.err ⟨"Undefined variable \x27" ++ name ++ "\x27", line, column⟩,
              .mk none venv)
  | env, _, _ => (.abort .assignNonIdentifier, env)

/-! ## The evaluator (`Interpreter::evaluate` and friends) -/

/-- Two's-complement wrap-around of `i64` arithmetic. -/
def wrap64 (n : Int) : Int := (n + 2 ^ 63) % 2 ^ 64 - 2 ^ 63

def i64Min : Int := -(2 ^ 63)

/-- The `(KoxValue::Int, KoxValue::Int)` arm of `evaluate_binary`.
Rust `left / right` traps on a zero or overflowing division, which is the
`abort` result; `/` on `i64` truncates toward zero (`Int.tdiv`). -/
def intBinOp (a : Int) (op : Token) (b : Int) (line column : Nat) : EvalRes :=
  match op with
  | .plus => .ok (.int (wrap64 (a + b)))
  | .minus => .ok (.int (wrap64 (a - b)))
  | .asterisk => .ok (.int (wrap64 (a * b)))
  | .slash =>
      if b = 0 then .abort .divByZero
      else if a = i64Min ∧ b = -1 then .abort .intOverflow
      else .ok (.int (Int.tdiv a b))
  | .greaterThan => .ok (.boolean (decide (a > b)))
  | .lessThan => .ok (.boolean (decide (a < b)))
  | .greaterThanEqual => .ok (.boolean (decide (a ≥ b)))
  | .lessThanEqual => .ok (.boolean (decide (a ≤ b)))
  | other =>
      .err ⟨"Invalid operator for integers: " ++ other.debugStr, line, column⟩

/-- The `(KoxValue::Float, KoxValue::Float)` arm of `evaluate_binary`. -/
def floatBinOp (a : Float) (op : Token) (b : Float) (line column : Nat) :
    EvalRes :=
  match op with
  | .plus => .ok (.float (a + b))
  | .minus => .ok (.float (a - b))
  | .asterisk => .ok (.float (a * b))
  | .slash => .ok (.float (a / b))
  | other =>
      .err ⟨"Invalid operator for floats: " ++ other.debugStr, line, column⟩

def valueToKox : Value → KoxValue
  | .int i => .int i
  | .float f => .float f
  | .str s => .str s
  | .boolean b => .boolean b
  | .nil => .nil

/-- A key-enumeration oracle standing for `HashMap::keys()` order. -/
abbrev KO := List (String × KoxValue) → List String

/-- An oracle is faithful to the Rust `HashMap` when it enumerates exactly
the stored keys, in some order. -/
def ValidKO (ko : KO) : Prop := ∀ l, List.Perm (ko l) (l.map Prod.fst)

/-- Insertion order — one possible `HashMap` enumeration. -/
def koDefault : KO := fun l => l.map Prod.fst

/-- Reverse insertion order — another possible `HashMap` enumeration. -/
def koRev : KO := fun l => (l.map Prod.fst).reverse

/-- The binding loop of `KoxFunction::call`. -/
def bindParams : Environment → List (String × KoxValue) → Environment
  | env, [] => env
  | env, (n, v) :: rest => bindParams (env.insert n v) rest

/-- The plumbing of the Rust `?` operator on an evaluation result: run
the continuation on an `Ok` value, propagate anything else (errors,
aborts, fuel exhaustion) unchanged. -/
def andThen (x : EvalRes × Environment)
    (f : KoxValue → Environment → EvalRes × Environment) :
    EvalRes × Environment :=
  match x with
  | (.ok v, env1) => f v env1
  | other => other

/-- The `Return`-unwrapping step of `evaluate_program`: a `Return`-wrapped
result stops the fold and is unwrapped; any other `Ok` value continues. -/
def progStep (x : EvalRes × Environment)
    (f : KoxValue → Environment → EvalRes × Environment) :
    EvalRes × Environment :=
  match x with
  | (.ok (.ret v), env1) => (.ok v, env1)
  | (.ok v, env1) => f v env1
  | other => other

/-- One step of the argument-evaluation loop (`args.push(...?)`). -/
def argStep (x : EvalRes × Environment)
    (f : KoxValue → Environment →
      Except EvalRes (List KoxValue) × Environment) :
    Except EvalRes (List KoxValue) × Environment :=
  match x with
  | (.ok v, env1) => f v env1
  | (r, env1) => (.error r, env1)

/-- Consume the result of the argument loop. -/
def argsAndThen (x : Except EvalRes (List KoxValue) × Environment)
    (f : List KoxValue → Environment → EvalRes × Environment) :
    EvalRes × Environment :=
  match x with
  | (.ok vals, env2) => f vals env2
  | (.error r, env2) => (r, env2)

/-- The arity check and dispatch shared by both callable kinds
(`Callable::arity` is `u8`, so the argument count is compared mod 256). -/
def arityCheck (arity : Nat) (vals : List KoxValue) (line column : Nat)
    (env2 : Environment) (run : Unit → EvalRes × Environment) :
    EvalRes × Environment :=
  if vals.length % 256 ≠ arity then
    (.err ⟨"Expected " ++ toString arity ++ " arguments but got " ++
      toString vals.length, line, column⟩, env2)
  else run ()

/-- The pure part of the `Binary` arm after both operands are values. -/
def binResult (lv : KoxValue) (op : Token) (rv : KoxValue)
    (line column : Nat) : EvalRes :=
  if lv.tag ≠ rv.tag then
    .err ⟨"Operands must be of the same type", line, column⟩
  else
    match lv, rv with
    | .int a, .int b => intBinOp a op b line column
    | .float a, .float b => floatBinOp a op b line column
    | _, _ =>
        .err ⟨"Invalid operands for operator: " ++ op.debugStr, line, column⟩

mutual
/-- `Interpreter::evaluate`, with the `&mut Environment` threaded through
and fuel decremented at every recursive call. -/
def evaluate (ko : KO) : Nat → Expression → Environment →
    EvalRes × Environment
  | 0, _, env => (.fuelOut, env)
  | fuel + 1, e, env =>
    match e with
    | .binary l op r line column =>
        andThen (evaluate ko fuel l env) fun lv env1 =>
          andThen (evaluate ko fuel r env1) fun rv env2 =>
            (binResult lv op rv line column, env2)
    | .call f args line column =>
        andThen (evaluate ko fuel f env) fun callee env1 =>
          match callee with
          | .nativeFunction arity impl =>
              argsAndThen (evaluateArgs ko fuel args env1) fun vals env2 =>
                arityCheck arity vals line column env2 fun _ =>
                  (impl.run vals, env2)
          | .koxFunction arity body closure =>
              argsAndThen (evaluateArgs ko fuel args env1) fun vals env2 =>
                arityCheck arity vals line column env2 fun _ =>
                  -- `KoxFunction::call`: child of the closure, then bind the
                  -- *closure's keys* (not the parameters) to the arguments.
                  ((evaluate ko fuel body
                      (bindParams closure.child
                        ((ko closure.venv).zip vals))).1, env2)
          | other =>
              (.err ⟨"Can only call functions! Not " ++ other.display,
                line, column⟩, env1)
    | .identifier name line column =>
        (match env.get name with
         | some v => .ok v
         | none =>
             .err ⟨"Undefined variable \x27" ++ name ++ "\x27", line, column⟩,
         env)
    | .assign name value line column =>
        andThen (evaluate ko fuel value env) fun v env1 =>
          env1.assign (.identifier name line column) v
    | .value v _ _ => (.ok (valueToKox v), env)
    | .letE name value _ _ =>
        andThen (evaluate ko fuel value env) fun v env1 =>
          (.ok v, env1.insert name v)
    | .ret value _ _ =>
        andThen (evaluate ko fuel value env) fun v env1 =>
          (.ok (.ret v), env1)
    | .block es _ _ =>
        -- the child environment is discarded (`&mut environment.child()`)
        ((evaluateProgram ko fuel es env.child .nil).1, env)
    | .ifE cond cons alt line column =>
        andThen (evaluate ko fuel cond env) fun c env1 =>
          match c with
          | .boolean true => evaluate ko fuel cons env1
          | .boolean false =>
              match alt with
              | some a => evaluate ko fuel a env1
              | none => (.ok .nil, env1)
          | _ => (.err ⟨"Condition must be a boolean", line, column⟩, env1)
    | .function name parameters body _ _ =>
        -- closure captured (cloned) *before* the name is inserted
        (.ok .nil,
          env.insert name (.koxFunction (parameters.length % 256) body env))
    | .forE _ _ _ _ _ => (.abort .forTodo, env)

/-- `Interpreter::evaluate_program`: fold the expressions, unwrapping and
stopping at the first `Return`-wrapped result. -/
def evaluateProgram (ko : KO) : Nat → List Expression → Environment →
    KoxValue → EvalRes × Environment
  | 0, _, env, _ => (.fuelOut, env)
  | fuel + 1, es, env, result =>
    match es with
    | [] => (.ok result, env)
    | e :: rest =>
        progStep (evaluate ko fuel e env) fun v env1 =>
          evaluateProgram ko fuel rest env1 v

/-- The argument-evaluation loop of the `Expression::Call` arm. -/
def evaluateArgs (ko : KO) : Nat → List Expression → Environment →
    Except EvalRes (List KoxValue) × Environment
  | 0, _, env => (.error .fuelOut, env)
  | fuel + 1, es, env =>
    match es with
    | [] => (.ok [], env)
    | e :: rest =>
        argStep (evaluate ko fuel e env) fun v env1 =>
          match evaluateArgs ko fuel rest env1 with
          | (.ok vs, env2) => (.ok (v :: vs), env2)
          | other => other
end

/-- Top-level program evaluation (`evaluate_program` from `main`/`repl`,
starting with a `Nil` accumulator). -/
def runProgram (ko : KO) (fuel : Nat) (program : List Expression)
    (env : Environment) : EvalRes × Environment :=
  evaluateProgram ko fuel program env .nil

/-- `Interpreter::new`: the global environment holds the `print` native. -/
def globalEnvironment : Environment :=
  .mk none [("print", .nativeFunction 1 .print)]

/-! ## The parser (`src/parser.rs`)

The tokenizer is a collaborator: it is modelled as a pull stream of
position-tagged tokens.  Each `LexedToken` carries the lexer's `line` and
`column` fields as they stand *after* that token has been produced, which
is what `Parser::next_token` copies into the parser before pulling. -/

structure LexedToken where
  tok : Token
  line : Nat
  column : Nat
deriving Repr

structure ParseError where
  message : String
  line : Nat
  column : Nat
deriving Repr, DecidableEq

/-- The parser's mutable state (`Parser` plus the lexer's position). -/
structure PState where
  stream : List LexedToken
  lookahead : Token
  line : Nat
  column : Nat
  lexline : Nat
  lexcolumn : Nat
deriving Repr

/-- `Lexer::next_token` on the stream model: pop the next token and adopt
its attached position; an exhausted stream yields `Eof` forever. -/
def lexNext (s : PState) : Token × PState :=
  match s.stream with
  | [] => (.eof, s)
  | lt :: rest =>
      (lt.tok, { s with stream := rest, lexline := lt.line,
                        lexcolumn := lt.column })

/-- `Parser::next_token` followed by the caller's
`self.lookahead = self.next_token()`: record the lexer's position, pull the
next token, store it as the lookahead. -/
def advanceLookahead (s : PState) : PState :=
  let s1 := { s with line := s.lexline, column := s.lexcolumn }
  let r := lexNext s1
  { r.2 with lookahead := r.1 }

/-- `Parser::is`. -/
def PState.is (s : PState) (t : Token) : Bool := tokenEq s.lookahead t

/-- `Parser::nibble`. -/
def nibbleF (t : Token) (s : PState) : Bool × PState :=
  if s.is t then (true, advanceLookahead s) else (false, s)

/-- The `eat!` macro. -/
def eatF (t : Token) (s : PState) : Except ParseError PState :=
  match nibbleF t s with
  | (true, s1) => .ok s1
  | (false, s1) => .error ⟨"expected " ++ t.debugStr, s1.line, s1.column⟩

/-- The `eat_identifier!` macro (result and state, or a located error). -/
def eatIdentifierF (s : PState) : Except ParseError (String × PState) :=
  match s.lookahead with
  | .ident id => .ok (id, advanceLookahead s)
  | _ => .error ⟨"expected identifier", s.line, s.column⟩

/-- `Parser::new`: pull the first lookahead; `line`/`column` start at 1/0. -/
def mkPState (toks : List LexedToken) : PState :=
  let s0 : PState :=
    { stream := toks, lookahead := .eof, line := 1, column := 0,
      lexline := 1, lexcolumn := 0 }
  let r := lexNext s0
  { r.2 with lookahead := r.1, line := 1, column := 0 }

/-- A parse outcome: success with the new parser state, a located error
with the parser state at the point of failure (Rust keeps mutating `self`
even when a production returns `Err`), or out of fuel. -/
inductive PRes (α : Type) where
  | ok : α → PState → PRes α
  | err : ParseError → PState → PRes α
  | out : PRes α
deriving Repr

/-- The discrimination `push_program!` performs on a just-parsed expression
to decide whether it self-delimits (no following `;` is consumed). -/
def isBlockExpr : Expression → Bool
  | .block _ _ _ => true
  | _ => false

def selfDelim : Expression → Bool
  | .forE _ _ body _ _ => isBlockExpr body
  | .function _ _ body _ _ => isBlockExpr body
  | .ifE _ cons alt _ _ =>
      match alt with
      | some a => isBlockExpr a
      | none => isBlockExpr cons
  | _ => false

mutual
/-- `Parser::expression`. -/
def expressionF : Nat → PState → PRes Expression
  | 0, _ => .out
  | fuel + 1, s =>
    match s.lookahead with
    | .forK => forExpressionF fuel s
    | .lbrace => blockF fuel s
    | .letK => letExpressionF fuel s
    | .functionK => functionExpressionF fuel s
    | .ifK => ifExpressionF fuel s
    | .returnK => returnExpressionF fuel s
    | _ => assignmentF fuel s

/-- `Parser::return_expression`. -/
def returnExpressionF : Nat → PState → PRes Expression
  | 0, _ => .out
  | fuel + 1, s =>
    match eatF .returnK s with
    | .error e => .err e s
    | .ok s1 =>
        match expressionF fuel s1 with
        | .ok v s2 => .ok (.ret v s2.line s2.column) s2
        | .err e s2 => .err e s2
        | .out => .out

/-- `Parser::if_expression`.  The consequence's `Result` is saved and only
questioned *after* the alternative has been parsed. -/
def ifExpressionF : Nat → PState → PRes Expression
  | 0, _ => .out
  | fuel + 1, s =>
    match eatF .ifK s with
    | .error e => .err e s
    | .ok s1 =>
        match expressionF fuel s1 with
        | .ok cond s2 =>
            match expressionF fuel s2 with
            | .ok cons s3 =>
                match nibbleF .elseK s3 with
                | (true, s4) =>
                    match expressionF fuel s4 with
                    | .ok alt s5 =>
                        .ok (.ifE cond cons (some alt) s5.line s5.column) s5
                    | .err e2 s5 => .err e2 s5
                    | .out => .out
                | (false, s4) =>
                    .ok (.ifE cond cons none s4.line s4.column) s4
            | .err e s3 =>
                -- consequence failed: still nibble `else` and parse the
                -- alternative; its `?` fires before `consequence?` does
                match nibbleF .elseK s3 with
                | (true, s4) =>
                    match expressionF fuel s4 with
                    | .ok _ s5 => .err e s5
                    | .err e2 s5 => .err e2 s5
                    | .out => .out
                | (false, s4) => .err e s4
            | .out => .out
        | .err e s2 => .err e s2
        | .out => .out

/-- The `while self.nibble(Comma) { parameters.push(eat_identifier!) }`
loop of `function_expression`. -/
def paramsLoopF : Nat → List String → PState → PRes (List String)
  | 0, _, _ => .out
  | fuel + 1, acc, s =>
    match nibbleF .comma s with
    | (true, s1) =>
        match eatIdentifierF s1 with
        | .ok r => paramsLoopF fuel (acc ++ [r.1]) r.2
        | .error e => .err e s1
    | (false, s1) => .ok acc s1

/-- `Parser::function_expression`. -/
def functionExpressionF : Nat → PState → PRes Expression
  | 0, _ => .out
  | fuel + 1, s =>
    match eatF .functionK s with
    | .error e => .err e s
    | .ok s1 =>
        match eatIdentifierF s1 with
        | .error e => .err e s1
        | .ok (name, s2) =>
            match eatF .lparen s2 with
            | .error e => .err e s2
            | .ok s3 =>
                let afterParams : PRes (List String) :=
                  if s3.is .rparen then .ok [] s3
                  else
                    match eatIdentifierF s3 with
                    | .error e => .err e s3
                    | .ok (p, s4) => paramsLoopF fuel [p] s4
                match afterParams with
                | .ok params s5 =>
                    match eatF .rparen s5 with
                    | .error e => .err e s5
                    | .ok s6 =>
                        match expressionF fuel s6 with
                        | .ok body s7 =>
                            .ok (.function name params body s7.line s7.column)
                              s7
                        | .err e s7 => .err e s7
                        | .out => .out
                | .err e s5 => .err e s5
                | .out => .out

/-- `Parser::let_expression`. -/
def letExpressionF : Nat → PState → PRes Expression
  | 0, _ => .out
  | fuel + 1, s =>
    match eatF .letK s with
    | .error e => .err e s
    | .ok s1 =>
        match eatIdentifierF s1 with
        | .error e => .err e s1
        | .ok (name, s2) =>
            match eatF .eq s2 with
            | .error e => .err e s2
            | .ok s3 =>
                match expressionF fuel s3 with
                | .ok v s4 => .ok (.letE name v s4.line s4.column) s4
                | .err e s4 => .err e s4
                | .out => .out

/-- The `while !self.is(Token::RBrace)` loop of `Parser::block`, carrying
the `semicolon` flag.  `push_program!`'s `continue` on a self-delimiting
expression skips the `nibble(Semicolon)`, so the flag stays `false`. -/
def blockLoopF : Nat → PState → List Expression → Bool →
    PRes (List Expression × Bool)
  | 0, _, _, _ => .out
  | fuel + 1, s, stmts, semi =>
    if s.is .rbrace then .ok (stmts, semi) s
    else if semi = false then
      .err ⟨"expected semicolon", s.line, s.column⟩ s
    else
      match expressionF fuel s with
      | .ok e s1 =>
          if selfDelim e then blockLoopF fuel s1 (stmts ++ [e]) false
          else
            match nibbleF .semicolon s1 with
            | (true, s2) => blockLoopF fuel s2 (stmts ++ [e]) true
            | (false, s2) => blockLoopF fuel s2 (stmts ++ [e]) false
      | .err e s1 => .err e s1
      | .out => .out

/-- `Parser::block`. -/
def blockF : Nat → PState → PRes Expression
  | 0, _ => .out
  | fuel + 1, s =>
    match eatF .lbrace s with
    | .error e => .err e s
    | .ok s1 =>
        match blockLoopF fuel s1 [] true with
        | .ok (stmts, semi) s2 =>
            let stmts :=
              if semi then stmts ++ [.value .nil s2.line s2.column] else stmts
            match eatF .rbrace s2 with
            | .error e => .err e s2
            | .ok s3 => .ok (.block stmts s3.line s3.column) s3
        | .err e s2 => .err e s2
        | .out => .out

/-- `Parser::for_expression`. -/
def forExpressionF : Nat → PState → PRes Expression
  | 0, _ => .out
  | fuel + 1, s =>
    match eatF .forK s with
    | .error e => .err e s
    | .ok s1 =>
        match eatIdentifierF s1 with
        | .error e => .err e s1
        | .ok (name, s2) =>
            match eatF .inK s2 with
            | .error e => .err e s2
            | .ok s3 =>
                match expressionF fuel s3 with
                | .ok iter s4 =>
                    match blockF fuel s4 with
                    | .ok body s5 =>
                        .ok (.forE name iter body s5.line s5.column) s5
                    | .err e s5 => .err e s5
                    | .out => .out
                | .err e s4 => .err e s4
                | .out => .out

/-- `Parser::assignment`.  The right-hand side's `Result` is saved; when
the target is not an identifier the error is raised at the *lexer's*
position after that parse. -/
def assignmentF : Nat → PState → PRes Expression
  | 0, _ => .out
  | fuel + 1, s =>
    match equalityF fuel s with
    | .ok expr s1 =>
        match nibbleF .eq s1 with
        | (true, s2) =>
            match expr with
            | .identifier name _ _ =>
                match assignmentF fuel s2 with
                | .ok v s3 => .ok (.assign name v s3.line s3.column) s3
                | .err e s3 => .err e s3
                | .out => .out
            | _ =>
                match assignmentF fuel s2 with
                | .ok _ s3 =>
                    .err ⟨"invalid assignment target", s3.lexline,
                      s3.lexcolumn⟩ s3
                | .err _ s3 =>
                    .err ⟨"invalid assignment target", s3.lexline,
                      s3.lexcolumn⟩ s3
                | .out => .out
        | (false, s2) => .ok expr s2
    | .err e s1 => .err e s1
    | .out => .out

/-- `Parser::equality`. -/
def equalityF : Nat → PState → PRes Expression
  | 0, _ => .out
  | fuel + 1, s =>
    match comparisonF fuel s with
    | .ok expr s1 => equalityLoopF fuel expr s1
    | .err e s1 => .err e s1
    | .out => .out

def equalityLoopF : Nat → Expression → PState → PRes Expression
  | 0, _, _ => .out
  | fuel + 1, expr, s =>
    if s.is .eqEq || s.is .bangEq then
      let op := s.lookahead
      let s1 := advanceLookahead s
      match comparisonF fuel s1 with
      | .ok right s2 =>
          equalityLoopF fuel (.binary expr op right s2.line s2.column) s2
      | .err e s2 => .err e s2
      | .out => .out
    else .ok expr s

/-- `Parser::comparison`.  Note the struct-literal field order in the
source: `line`/`column` are captured *before* the right operand is
parsed. -/
def comparisonF : Nat → PState → PRes Expression
  | 0, _ => .out
  | fuel + 1, s =>
    match termF fuel s with
    | .ok expr s1 => comparisonLoopF fuel expr s1
    | .err e s1 => .err e s1
    | .out => .out

def comparisonLoopF : Nat → Expression → PState → PRes Expression
  | 0, _, _ => .out
  | fuel + 1, expr, s =>
    if s.is .lessThan || s.is .lessThanEqual || s.is .greaterThan ||
        s.is .greaterThanEqual then
      let op := s.lookahead
      let s1 := advanceLookahead s
      match termF fuel s1 with
      | .ok right s2 =>
          comparisonLoopF fuel (.binary expr op right s1.line s1.column) s2
      | .err e s2 => .err e s2
      | .out => .out
    else .ok expr s

/-- `Parser::term`. -/
def termF : Nat → PState → PRes Expression
  | 0, _ => .out
  | fuel + 1, s =>
    match factorF fuel s with
    | .ok expr s1 => termLoopF fuel expr s1
    | .err e s1 => .err e s1
    | .out => .out

def termLoopF : Nat → Expression → PState → PRes Expression
  | 0, _, _ => .out
  | fuel + 1, expr, s =>
    if s.is .plus || s.is .minus then
      let op := s.lookahead
      let s1 := advanceLookahead s
      match factorF fuel s1 with
      | .ok right s2 =>
          termLoopF fuel (.binary expr op right s2.line s2.column) s2
      | .err e s2 => .err e s2
      | .out => .out
    else .ok expr s

/-- `Parser::factor`. -/
def factorF : Nat → PState → PRes Expression
  | 0, _ => .out
  | fuel + 1, s =>
    match exponentialF fuel s with
    | .ok expr s1 => factorLoopF fuel expr s1
    | .err e s1 => .err e s1
    | .out => .out

def factorLoopF : Nat → Expression → PState → PRes Expression
  | 0, _, _ => .out
  | fuel + 1, expr, s =>
    if s.is .asterisk || s.is .slash then
      let op := s.lookahead
      let s1 := advanceLookahead s
      match exponentialF fuel s1 with
      | .ok right s2 =>
          factorLoopF fuel (.binary expr op right s2.line s2.column) s2
      | .err e s2 => .err e s2
      | .out => .out
    else .ok expr s

/-- `Parser::exponential`. -/
def exponentialF : Nat → PState → PRes Expression
  | 0, _ => .out
  | fuel + 1, s =>
    match unaryF fuel s with
    | .ok expr s1 => exponentialLoopF fuel expr s1
    | .err e s1 => .err e s1
    | .out => .out

def exponentialLoopF : Nat → Expression → PState → PRes Expression
  | 0, _, _ => .out
  | fuel + 1, expr, s =>
    match nibbleF .pow s with
    | (true, s1) =>
        match unaryF fuel s1 with
        | .ok right s2 =>
            exponentialLoopF fuel (.binary expr .pow right s2.line s2.column)
              s2
        | .err e s2 => .err e s2
        | .out => .out
    | (false, s1) => .ok expr s1

/-- `Parser::unary` (delegates to `call`). -/
def unaryF : Nat → PState → PRes Expression
  | 0, _ => .out
  | fuel + 1, s => callF fuel s

/-- The `while self.nibble(Comma) { args.push(expression?) }` loop of
`Parser::call`. -/
def callArgsLoopF : Nat → List Expression → PState → PRes (List Expression)
  | 0, _, _ => .out
  | fuel + 1, acc, s =>
    match nibbleF .comma s with
    | (true, s1) =>
        match expressionF fuel s1 with
        | .ok e s2 => callArgsLoopF fuel (acc ++ [e]) s2
        | .err e s2 => .err e s2
        | .out => .out
    | (false, s1) => .ok acc s1

/-- `Parser::call`. -/
def callF : Nat → PState → PRes Expression
  | 0, _ => .out
  | fuel + 1, s =>
    match primaryF fuel s with
    | .ok callee s1 =>
        match nibbleF .lparen s1 with
        | (true, s2) =>
            let argsRes : PRes (List Expression) :=
              if s2.is .rparen then .ok [] s2
              else
                match expressionF fuel s2 with
                | .ok a s3 => callArgsLoopF fuel [a] s3
                | .err e s3 => .err e s3
                | .out => .out
            match argsRes with
            | .ok args s4 =>
                match eatF .rparen s4 with
                | .error e => .err e s4
                | .ok s5 => .ok (.call callee args s5.line s5.column) s5
            | .err e s4 => .err e s4
            | .out => .out
        | (false, s2) => .ok callee s2
    | .err e s1 => .err e s1
    | .out => .out

/-- `Parser::primary`.  On the literal/error path the lookahead is always
advanced before the saved result is returned. -/
def primaryF : Nat → PState → PRes Expression
  | 0, _ => .out
  | fuel + 1, s =>
    match nibbleF .lparen s with
    | (true, s1) =>
        match expressionF fuel s1 with
        | .ok e s2 =>
            match eatF .rparen s2 with
            | .error er => .err er s2
            | .ok s3 => .ok e s3
        | .err e s2 => .err e s2
        | .out => .out
    | (false, s1) =>
        match s1.lookahead with
        | .ident name =>
            let s2 := advanceLookahead s1
            .ok (.identifier name s2.line s2.column) s2
        | t =>
            let res : Except ParseError Expression :=
              match t with
              | .trueK => .ok (.value (.boolean true) s1.line s1.column)
              | .falseK => .ok (.value (.boolean false) s1.line s1.column)
              | .int i => .ok (.value (.int i) s1.line s1.column)
              | .float f => .ok (.value (.float f) s1.line s1.column)
              | .str st => .ok (.value (.str st) s1.line s1.column)
              | .illegal er => .error ⟨er, s1.lexline, s1.lexcolumn⟩
              | other =>
                  .error ⟨"unexpected token: " ++ other.debugStr,
                    s1.lexline, s1.lexcolumn⟩
            let s2 := advanceLookahead s1
            match res with
            | .ok e => .ok e s2
            | .error er => .err er s2

/-- The `while !self.is(Token::Eof)` loop of `Parser::parse_program`:
`push_program!` then `eat!(Semicolon)`, where a self-delimiting expression
`continue`s past the `eat!`. -/
def parseProgramLoopF : Nat → PState → List Expression →
    PRes (List Expression)
  | 0, _, _ => .out
  | fuel + 1, s, program =>
    if s.is .eof then .ok program s
    else
      match expressionF fuel s with
      | .ok e s1 =>
          if selfDelim e then parseProgramLoopF fuel s1 (program ++ [e])
          else
            match eatF .semicolon s1 with
            | .ok s2 => parseProgramLoopF fuel s2 (program ++ [e])
            | .error er => .err er s1
      | .err e s1 => .err e s1
      | .out => .out
end

/-- `Parser::parse_program` from a raw token stream. -/
def parseProgramF (fuel : Nat) (toks : List LexedToken) :
    PRes (List Expression) :=
  parseProgramLoopF fuel (mkPState toks) []

/-! ## Shared concrete material for the claims -/

/-- An empty starting environment. -/
def env0 : Environment := .mk none []

/-- Shorthand for an integer literal expression. -/
def intLit (i : Int) (l c : Nat) : Expression := .value (.int i) l c

/-- Position-tagged token shorthand (all on line 1). -/
def lx (t : Token) (c : Nat) : LexedToken := ⟨t, 1, c⟩

/-! ## C1 — blocks and `ReturnSignal` -/

/-- C1, counterexample.  Claimed: a block propagates a `ReturnSignal`
outward *unchanged (still wrapped)* and a nested `return` unwinds past
enclosing blocks.  In the code, `Expression::Block` evaluates through
`evaluate_program`, which unwraps the `Return` and stops: the block
`{ return 5; }` evaluates to the plain `Int 5`, not to the wrapped
signal, and `{ { return 5; }; 7 }` evaluates to `7`, the return having
been absorbed by the inner block. -/
theorem c1_counterexample :
    (evaluate koDefault 9 (.block [.ret (intLit 5 1 1) 1 1] 1 1) env0).1 =
      .ok (.int 5)
    ∧ EvalRes.ok (.int 5) ≠ EvalRes.ok (.ret (.int 5))
    ∧ (runProgram koDefault 9
        [.block [.block [.ret (intLit 5 1 1) 1 1] 1 1, intLit 7 1 5] 1 1]
        env0).1 = .ok (.int 7) := by
  refine ⟨rfl, ?_, rfl⟩
  intro h
  injection h with h2
  cases h2

/-- C1, amended: when a sub-evaluation of a block (or of the top-level
program sequence) yields a `Return`-wrapped value, evaluation stops
immediately with the remaining expressions unevaluated, and the result is
the *unwrapped* returned value — every block acts as a return boundary,
so a `return` inside a nested block stops at the innermost enclosing
block.  The enclosing environment is returned unchanged by a block. -/
theorem c1_amended :
    (∀ (ko : KO) (fuel : Nat) (e : Expression) (rest : List Expression)
       (env : Environment) (acc v : KoxValue) (env1 : Environment),
       evaluate ko fuel e env = (.ok (.ret v), env1) →
       evaluateProgram ko (fuel + 1) (e :: rest) env acc = (.ok v, env1))
    ∧ (∀ (ko : KO) (fuel : Nat) (e : Expression) (rest : List Expression)
       (line column : Nat) (env : Environment) (v : KoxValue)
       (env1 : Environment),
       evaluate ko fuel e env.child = (.ok (.ret v), env1) →
       evaluate ko (fuel + 1 + 1) (.block (e :: rest) line column) env =
         (.ok v, env)) := by
  constructor
  · intro ko fuel e rest env acc v env1 h
    simp only [evaluateProgram, h, progStep]
  · intro ko fuel e rest line column env v env1 h
    simp only [evaluate, evaluateProgram, h, progStep]

/-- C1, witness for the amended theorem. -/
theorem c1_witness :
    evaluateProgram koDefault 4 [.ret (intLit 5 1 1) 1 1, intLit 7 1 5]
      env0 .nil = (.ok (.int 5), env0) :=
  c1_amended.1 koDefault 3 (.ret (intLit 5 1 1) 1 1) [intLit 7 1 5]
    env0 .nil (.int 5) env0 rfl

/-! ## C2 — parameter binding in `KoxFunction::call` -/

/-- C2.  The claim (binding by declared parameter names, in order) is the
spec's stated intent; the code instead zips the *closure's stored keys*
with the arguments.  Evaluating
`let y = 1; fn f(x) x; f(42)` therefore fails with
`Undefined variable 'x'` (the argument was bound to `y`, not to the
declared parameter `x`), where the claim requires the result `42`. -/
theorem c2_failing :
    (runProgram koDefault 20
      [.letE "y" (intLit 1 1 5) 1 1,
       .function "f" ["x"] (.identifier "x" 2 10) 2 1,
       .call (.identifier "f" 3 1) [intLit 42 3 3] 3 2] env0).1 =
      .err ⟨"Undefined variable \x27x\x27", 2, 10⟩
    ∧ (runProgram koDefault 20
      [.letE "y" (intLit 1 1 5) 1 1,
       .function "f" ["x"] (.identifier "y" 2 10) 2 1,
       .call (.identifier "f" 3 1) [intLit 42 3 3] 3 2] env0).1 =
      .ok (.int 42) := ⟨rfl, rfl⟩

/-! ## C3 — `childScope` sharing -/

/-- C3.  The claim (child scopes reference the parent, so assignments
through a child are visible through the parent) is the spec's stated
contract; `Environment::child` instead *clones* the parent, and the
`Block` arm discards the child, so `let x = 1; { x = 2 }; x` evaluates to
`1`, not `2`.  The first conjunct is general: evaluating any block
returns the caller's environment unchanged. -/
theorem c3_failing :
    (∀ (ko : KO) (fuel : Nat) (es : List Expression) (line column : Nat)
       (env : Environment),
       (evaluate ko fuel (.block es line column) env).2 = env)
    ∧ (runProgram koDefault 20
        [.letE "x" (intLit 1 1 5) 1 1,
         .block [.assign "x" (intLit 2 2 5) 2 3] 2 1,
         .identifier "x" 3 1] env0).1 = .ok (.int 1) := by
  refine ⟨?_, rfl⟩
  intro ko fuel es line column env
  cases fuel with
  | zero => rfl
  | succ n => rfl

/-! ## C5 — integer division by zero -/

/-- C5.  The claim says dividing by integer zero yields a
`DivisionByZero` `RuntimeError` value rather than trapping at the host
level.  The `(Int, Int)` arm of `evaluate_binary` computes `left / right`
directly, and Rust's `i64` division by zero panics: evaluating `6 / 0`
aborts the host process instead of producing any `RuntimeError`. -/
theorem c5_failing :
    (evaluate koDefault 9
      (.binary (intLit 6 1 1) .slash (intLit 0 1 5) 1 3) env0).1 =
      .abort .divByZero := rfl

/-! ## C6 — `For` evaluation -/

/-- C6.  The claim says a `For` expression always evaluates to an
ordinary result value and never a host-level abort.  The
`Expression::For` arm of `evaluate` is `todo!()`, which panics
unconditionally: every `for` expression aborts the host process. -/
theorem c6_failing :
    ∀ (ko : KO) (fuel : Nat) (name : String) (iter body : Expression)
      (line column : Nat) (env : Environment),
      (evaluate ko (fuel + 1) (.forE name iter body line column) env).1 =
        .abort .forTodo := by
  intro ko fuel name iter body line column env
  rfl

/-- C6, witness. -/
theorem c6_witness :
    (evaluate koDefault 9
      (.forE "i" (intLit 1 1 5) (.block [] 1 10) 1 1) env0).1 =
      .abort .forTodo :=
  c6_failing koDefault 8 "i" (intLit 1 1 5) (.block [] 1 10) 1 1 env0

/-! ## C7 — arity checking -/

/-- C7, counterexample.  Claimed: *every* call whose argument count
differs from the declared arity fails with an arity error.  The check
compares `args.len() as u8` with the `u8` arity, so a call passing 256
arguments to a function of declared arity 0 slips through the check and
evaluates the body: `fn f() 42; f(<256 args>)` evaluates to `42`. -/
theorem c7_counterexample :
    (256 : Nat) ≠ 0
    ∧ (runProgram koDefault 600
        [.function "f" [] (intLit 42 1 1) 1 1,
         .call (.identifier "f" 2 1) (List.replicate 256 (.value .nil 2 2))
           2 2] env0).1 = .ok (.int 42) :=
  ⟨by decide, by set_option maxRecDepth 8000 in rfl⟩

/-- C7, amended: a call of a user-defined function fails with the arity
error — before the body is looked at and leaving the caller's state as it
stood after argument evaluation — exactly when the argument count and the
declared arity differ *modulo 256* (both being compared as `u8`). -/
theorem c7_amended :
    ∀ (ko : KO) (fuel : Nat) (f : Expression) (args : List Expression)
      (line column : Nat) (env : Environment) (arity : Nat)
      (body : Expression) (closure env1 : Environment)
      (vals : List KoxValue) (env2 : Environment),
      evaluate ko fuel f env = (.ok (.koxFunction arity body closure), env1) →
      evaluateArgs ko fuel args env1 = (.ok vals, env2) →
      vals.length % 256 ≠ arity →
      evaluate ko (fuel + 1) (.call f args line column) env =
        (.err ⟨"Expected " ++ toString arity ++ " arguments but got " ++
          toString vals.length, line, column⟩, env2) := by
  intro ko fuel f args line column env arity body closure env1 vals env2
    hf ha hn
  simp only [evaluate, andThen, argsAndThen, arityCheck, hf, ha]
  rw [if_pos hn]

/-- A concrete environment binding `f` to a unary function, for the C7
witness. -/
def envF : Environment :=
  env0.insert "f" (.koxFunction 1 (intLit 42 9 9) env0)

/-- C7, witness for the amended theorem: calling the unary `f` with two
arguments fails with the arity error. -/
theorem c7_witness :
    evaluate koDefault 4
      (.call (.identifier "f" 1 1) [intLit 7 1 3, intLit 8 1 5] 1 2) envF =
      (.err ⟨"Expected 1 arguments but got 2", 1, 2⟩, envF) :=
  c7_amended koDefault 3 (.identifier "f" 1 1) [intLit 7 1 3, intLit 8 1 5]
    1 2 envF 1 (intLit 42 9 9) env0 envF [.int 7, .int 8] envF
    rfl rfl (by decide)

/-! ## C9 — no recursion through the captured environment -/

/-- `HashMap::insert` then `get` on the same key. -/
theorem lookup_upsert (l : List (String × KoxValue)) (n : String)
    (v : KoxValue) : lookupVenv (upsert l n v) n = some v := by
  induction l with
  | nil => simp [upsert, lookupVenv]
  | cons hd tl ih =>
      by_cases hk : hd.1 = n
      · simp [upsert, hk, lookupVenv]
      · simpa [upsert, hk, lookupVenv] using ih

/-- `Environment::insert` then `get` on the same name. -/
theorem get_insert (env : Environment) (n : String) (v : KoxValue) :
    (env.insert n v).get n = some v := by
  cases env with
  | mk enc venv =>
      cases enc with
      | none => simp [Environment.insert, Environment.get, lookup_upsert]
      | some e => simp [Environment.insert, Environment.get, lookup_upsert]

/-- C9.  The `Function` arm clones the environment *before* inserting the
function's own name, so the captured closure never contains that name:
defining `fn f() f()` in any environment where `f` has no pre-existing
binding and then calling `f` fails with `Undefined variable 'f'` instead
of recursing. -/
theorem c9_no_recursion :
    ∀ (ko : KO) (fuel : Nat) (name : String) (env : Environment)
      (l1 c1 l2 c2 l3 c3 l4 c4 l5 c5 : Nat),
      env.get name = none →
      (runProgram ko (fuel + 1 + 1 + 1 + 1 + 1)
        [.function name [] (.call (.identifier name l1 c1) [] l2 c2) l3 c3,
         .call (.identifier name l4 c4) [] l5 c5] env).1 =
        .err ⟨"Undefined variable \x27" ++ name ++ "\x27", l1, c1⟩ := by
  intro ko fuel name env l1 c1 l2 c2 l3 c3 l4 c4 l5 c5 h
  simp only [runProgram, evaluateProgram, evaluate, evaluateArgs,
    andThen, progStep, argStep, argsAndThen, arityCheck,
    get_insert, List.zip_nil_right, bindParams, Environment.child,
    Environment.get, lookupVenv, h]
  simp

/-- C9, witness. -/
theorem c9_witness :
    (runProgram koDefault 20
      [.function "f" [] (.call (.identifier "f" 1 15) [] 1 16) 1 1,
       .call (.identifier "f" 2 1) [] 2 2] env0).1 =
      .err ⟨"Undefined variable \x27f\x27", 1, 15⟩ := by
  have h := c9_no_recursion koDefault 15 "f" env0 1 15 1 16 1 1 2 1 2 2 rfl
  simpa using h

/-! ## C10 — the `Environment::assign` panic branch is unreachable -/

/-- The expressions `Environment::assign` would panic on. -/
def isIdentifierE : Expression → Bool
  | .identifier _ _ _ => true
  | _ => false

/-- `Environment::assign` applied to an `Identifier` expression never
reaches its panic branch, at any chain depth. -/
theorem assign_identifier_no_panic :
    ∀ (env : Environment) (ide : Expression) (v : KoxValue),
      isIdentifierE ide = true →
      (Environment.assign env ide v).1 ≠ .abort .assignNonIdentifier := by
  intro env ide v
  induction env, ide, v using Environment.assign.induct with
  | case1 enc venv name line column value h =>
      intro _
      cases enc <;> (simp only [Environment.assign]; rw [if_pos h]; simp)
  | case2 venv name line column value h e ih =>
      intro _
      simp only [Environment.assign]
      rw [if_neg h]
      simpa using ih rfl
  | case3 venv name line column value h =>
      intro _
      simp only [Environment.assign]
      rw [if_neg h]
      simp
  | case4 env2 ide2 v2 hex =>
      intro hid
      exfalso
      cases env2 with
      | mk enc venv =>
          cases ide2 <;> try simp [isIdentifierE] at hid
          exact hex _ _ _ _ _ rfl rfl

theorem andThen_no_panic {x : EvalRes × Environment}
    {f : KoxValue → Environment → EvalRes × Environment}
    (hx : x.1 ≠ .abort .assignNonIdentifier)
    (hf : ∀ v env1, (f v env1).1 ≠ .abort .assignNonIdentifier) :
    (andThen x f).1 ≠ .abort .assignNonIdentifier := by
  obtain ⟨r, env⟩ := x
  cases r with
  | ok v => exact hf v env
  | err e => simp [andThen]
  | abort p => simpa [andThen] using hx
  | fuelOut => simp [andThen]

theorem progStep_no_panic {x : EvalRes × Environment}
    {f : KoxValue → Environment → EvalRes × Environment}
    (hx : x.1 ≠ .abort .assignNonIdentifier)
    (hf : ∀ v env1, (f v env1).1 ≠ .abort .assignNonIdentifier) :
    (progStep x f).1 ≠ .abort .assignNonIdentifier := by
  obtain ⟨r, env⟩ := x
  cases r with
  | ok v => cases v <;> simp only [progStep] <;> first | exact hf _ _ | simp
  | err e => simp [progStep]
  | abort p => simpa [progStep] using hx
  | fuelOut => simp [progStep]

theorem argStep_no_panic {x : EvalRes × Environment}
    {f : KoxValue → Environment →
      Except EvalRes (List KoxValue) × Environment}
    (hx : x.1 ≠ .abort .assignNonIdentifier)
    (hf : ∀ v env1,
      (f v env1).1 ≠ .error (.abort .assignNonIdentifier)) :
    (argStep x f).1 ≠ .error (.abort .assignNonIdentifier) := by
  obtain ⟨r, env⟩ := x
  cases r with
  | ok v => exact hf v env
  | err e => simp [argStep]
  | abort p => simpa [argStep] using hx
  | fuelOut => simp [argStep]

theorem argsAndThen_no_panic {x : Except EvalRes (List KoxValue) × Environment}
    {f : List KoxValue → Environment → EvalRes × Environment}
    (hx : x.1 ≠ .error (.abort .assignNonIdentifier))
    (hf : ∀ vals env2, (f vals env2).1 ≠ .abort .assignNonIdentifier) :
    (argsAndThen x f).1 ≠ .abort .assignNonIdentifier := by
  obtain ⟨r, env⟩ := x
  cases r with
  | ok vals => exact hf vals env
  | error r =>
      intro hcontra
      apply hx
      simp only [argsAndThen] at hcontra
      simp [hcontra]

theorem arityCheck_no_panic {arity : Nat} {vals : List KoxValue}
    {line column : Nat} {env2 : Environment}
    {run : Unit → EvalRes × Environment}
    (h : (run ()).1 ≠ .abort .assignNonIdentifier) :
    (arityCheck arity vals line column env2 run).1 ≠
      .abort .assignNonIdentifier := by
  unfold arityCheck
  split
  · simp
  · exact h

theorem intBinOp_no_panic (a : Int) (op : Token) (b : Int)
    (line column : Nat) :
    intBinOp a op b line column ≠ .abort .assignNonIdentifier := by
  cases op <;> simp only [intBinOp] <;> (try split) <;> (try split) <;> simp

theorem floatBinOp_no_panic (a : Float) (op : Token) (b : Float)
    (line column : Nat) :
    floatBinOp a op b line column ≠ .abort .assignNonIdentifier := by
  cases op <;> simp [floatBinOp]

theorem binResult_no_panic (lv : KoxValue) (op : Token) (rv : KoxValue)
    (line column : Nat) :
    binResult lv op rv line column ≠ .abort .assignNonIdentifier := by
  unfold binResult
  split
  · simp
  · split
    · exact intBinOp_no_panic _ _ _ _ _
    · exact floatBinOp_no_panic _ _ _ _ _
    · simp

theorem nativeRun_no_panic (impl : NativeImpl) (vals : List KoxValue) :
    impl.run vals ≠ .abort .assignNonIdentifier := by
  cases impl
  cases vals <;> simp [NativeImpl.run]

/-- The joint statement for the three mutually recursive evaluators. -/
theorem no_assign_panic_main (ko : KO) :
    ∀ fuel : Nat,
      (∀ e env, (evaluate ko fuel e env).1 ≠ .abort .assignNonIdentifier)
      ∧ (∀ es env acc,
          (evaluateProgram ko fuel es env acc).1 ≠
            .abort .assignNonIdentifier)
      ∧ (∀ es env,
          (evaluateArgs ko fuel es env).1 ≠
            .error (.abort .assignNonIdentifier)) := by
  intro fuel
  induction fuel with
  | zero =>
      refine ⟨fun e env => ?_, fun es env acc => ?_, fun es env => ?_⟩ <;>
        simp [evaluate, evaluateProgram, evaluateArgs]
  | succ n ih =>
      obtain ⟨ih1, ih2, ih3⟩ := ih
      refine ⟨fun e env => ?_, fun es env acc => ?_, fun es env => ?_⟩
      · cases e with
        | binary l op r line column =>
            simp only [evaluate]
            refine andThen_no_panic (ih1 l env) fun lv env1 => ?_
            refine andThen_no_panic (ih1 r env1) fun rv env2 => ?_
            exact binResult_no_panic lv op rv line column
        | call f args line column =>
            simp only [evaluate]
            refine andThen_no_panic (ih1 f env) fun callee env1 => ?_
            cases callee with
            | nativeFunction arity impl =>
                refine argsAndThen_no_panic (ih3 args env1)
                  fun vals env2 => ?_
                exact arityCheck_no_panic (nativeRun_no_panic impl vals)
            | koxFunction arity body closure =>
                refine argsAndThen_no_panic (ih3 args env1)
                  fun vals env2 => ?_
                exact arityCheck_no_panic (ih1 body _)
            | int a => simp
            | float a => simp
            | str a => simp
            | boolean a => simp
            | nil => simp
            | ret a => simp
        | identifier name line column =>
            simp only [evaluate]
            cases h : env.get name <;> simp [h]
        | assign name value line column =>
            simp only [evaluate]
            refine andThen_no_panic (ih1 value env) fun v env1 => ?_
            exact assign_identifier_no_panic env1
              (.identifier name line column) v rfl
        | value v line column => simp [evaluate]
        | letE name value line column =>
            simp only [evaluate]
            exact andThen_no_panic (ih1 value env) fun v env1 => by simp
        | ret value line column =>
            simp only [evaluate]
            exact andThen_no_panic (ih1 value env) fun v env1 => by simp
        | block es line column =>
            simp only [evaluate]
            exact ih2 es env.child .nil
        | ifE cond cons alt line column =>
            simp only [evaluate]
            refine andThen_no_panic (ih1 cond env) fun c env1 => ?_
            cases c with
            | boolean b =>
                cases b with
                | true => exact ih1 cons env1
                | false =>
                    cases alt with
                    | some a => exact ih1 a env1
                    | none => simp
            | int a => simp
            | float a => simp
            | str a => simp
            | nil => simp
            | nativeFunction a i => simp
            | koxFunction a b c => simp
            | ret a => simp
        | function name parameters body line column => simp [evaluate]
        | forE name iter body line column => simp [evaluate]
      · cases es with
        | nil => simp [evaluateProgram]
        | cons e rest =>
            simp only [evaluateProgram]
            exact progStep_no_panic (ih1 e env)
              fun v env1 => ih2 rest env1 v
      · cases es with
        | nil => simp [evaluateArgs]
        | cons e rest =>
            simp only [evaluateArgs]
            refine argStep_no_panic (ih1 e env) fun v env1 => ?_
            have h3 := ih3 rest env1
            cases hx : evaluateArgs ko n rest env1 with
            | mk r2 env2 =>
                rw [hx] at h3
                cases r2 with
                | ok vs => simp
                | error r => simpa using h3

/-- C10.  For every `Assign` expression the evaluator constructs an
`Identifier` expression before calling `Environment::assign`, so the
`panic!` branch of `assign` (reached only for non-`Identifier` arguments)
is unreachable: no evaluation, of any expression in any environment,
aborts with that panic. -/
theorem c10_assign_panic_unreachable :
    ∀ (ko : KO) (fuel : Nat) (e : Expression) (env : Environment),
      (evaluate ko fuel e env).1 ≠ .abort .assignNonIdentifier :=
  fun ko fuel => (no_assign_panic_main ko fuel).1

/-! ## C4 — determinism and the `HashMap` key order -/

/-- C4, counterexample.  The parameter-binding loop of
`KoxFunction::call` iterates `HashMap::keys()`, whose order is
run-varying hidden state.  `koDefault` and `koRev` both enumerate exactly
the stored keys (`["a", "b"]` and `["b", "a"]`, a permutation), yet the
program `let a = 10; let b = 20; fn f(p) a; f(1)` evaluates to `1` under
one enumeration and to `10` under the other: two runs from equal starting
environments can disagree. -/
theorem c4_counterexample :
    koDefault [("a", KoxValue.int 10), ("b", KoxValue.int 20)] = ["a", "b"]
    ∧ koRev [("a", KoxValue.int 10), ("b", KoxValue.int 20)] = ["b", "a"]
    ∧ List.Perm ["b", "a"] ["a", "b"]
    ∧ (runProgram koDefault 20
        [.letE "a" (intLit 10 1 9) 1 1,
         .letE "b" (intLit 20 2 9) 2 1,
         .function "f" ["p"] (.identifier "a" 3 10) 3 1,
         .call (.identifier "f" 4 1) [intLit 1 4 3] 4 2] env0).1 =
        .ok (.int 1)
    ∧ (runProgram koRev 20
        [.letE "a" (intLit 10 1 9) 1 1,
         .letE "b" (intLit 20 2 9) 2 1,
         .function "f" ["p"] (.identifier "a" 3 10) 3 1,
         .call (.identifier "f" 4 1) [intLit 1 4 3] 4 2] env0).1 =
        .ok (.int 10)
    ∧ EvalRes.ok (.int 1) ≠ EvalRes.ok (.int 10) := by
  refine ⟨rfl, rfl, by decide, rfl, rfl, ?_⟩
  intro h
  simp at h

-- Expressions containing no `Call` node anywhere.
mutual
/-- `e` contains no `Call` node anywhere. -/
def callFree : Expression → Bool
  | .binary l _ r _ _ => callFree l && callFree r
  | .call _ _ _ _ => false
  | .identifier _ _ _ => true
  | .assign _ v _ _ => callFree v
  | .value _ _ _ => true
  | .letE _ v _ _ => callFree v
  | .ret v _ _ => callFree v
  | .block es _ _ => callFreeList es
  | .ifE c t a _ _ =>
      callFree c && callFree t &&
        (match a with
         | some x => callFree x
         | none => true)
  | .function _ _ _ _ _ => true
  | .forE _ _ _ _ _ => true

def callFreeList : List Expression → Bool
  | [] => true
  | e :: rest => callFree e && callFreeList rest
end

theorem andThen_congr {x y : EvalRes × Environment}
    {f g : KoxValue → Environment → EvalRes × Environment}
    (hxy : x = y) (hfg : ∀ v env1, f v env1 = g v env1) :
    andThen x f = andThen y g := by
  subst hxy
  obtain ⟨r, env⟩ := x
  cases r with
  | ok v => exact hfg v env
  | err e => rfl
  | abort p => rfl
  | fuelOut => rfl

theorem progStep_congr {x y : EvalRes × Environment}
    {f g : KoxValue → Environment → EvalRes × Environment}
    (hxy : x = y) (hfg : ∀ v env1, f v env1 = g v env1) :
    progStep x f = progStep y g := by
  subst hxy
  obtain ⟨r, env⟩ := x
  cases r with
  | ok v => cases v <;> simp only [progStep] <;> exact hfg _ _
  | err e => rfl
  | abort p => rfl
  | fuelOut => rfl

/-- C4, amended: evaluation is a pure function of the starting
environment, the fuel, and the `HashMap` key-enumeration order; in
particular the evaluation of an expression containing no `Call` node is
the same under any two enumeration orders.  (The counterexample shows the
unqualified claim fails at a `Call`: the binding loop depends on the
run-varying enumeration.) -/
theorem c4_amended (ko1 ko2 : KO) :
    ∀ fuel : Nat,
      (∀ e env, callFree e = true →
        evaluate ko1 fuel e env = evaluate ko2 fuel e env)
      ∧ (∀ es env acc, callFreeList es = true →
        evaluateProgram ko1 fuel es env acc =
          evaluateProgram ko2 fuel es env acc) := by
  intro fuel
  induction fuel with
  | zero => exact ⟨fun e env _ => rfl, fun es env acc _ => rfl⟩
  | succ n ih =>
      obtain ⟨ih1, ih2⟩ := ih
      constructor
      · intro e env hcf
        cases e with
        | binary l op r line column =>
            simp only [callFree, Bool.and_eq_true] at hcf
            obtain ⟨hl, hr⟩ := hcf
            simp only [evaluate]
            exact andThen_congr (ih1 l env hl) fun lv env1 =>
              andThen_congr (ih1 r env1 hr) fun rv env2 => rfl
        | call f args line column => simp [callFree] at hcf
        | identifier name line column => rfl
        | assign name value line column =>
            simp only [callFree] at hcf
            simp only [evaluate]
            exact andThen_congr (ih1 value env hcf) fun v env1 => rfl
        | value v line column => rfl
        | letE name value line column =>
            simp only [callFree] at hcf
            simp only [evaluate]
            exact andThen_congr (ih1 value env hcf) fun v env1 => rfl
        | ret value line column =>
            simp only [callFree] at hcf
            simp only [evaluate]
            exact andThen_congr (ih1 value env hcf) fun v env1 => rfl
        | block es line column =>
            simp only [callFree] at hcf
            simp only [evaluate]
            rw [ih2 es env.child .nil hcf]
        | ifE cond cons alt line column =>
            cases alt with
            | some a =>
                simp only [callFree, Bool.and_eq_true] at hcf
                obtain ⟨⟨hc, ht⟩, ha⟩ := hcf
                simp only [evaluate]
                refine andThen_congr (ih1 cond env hc) fun c env1 => ?_
                cases c with
                | boolean b =>
                    cases b with
                    | true => exact ih1 cons env1 ht
                    | false => exact ih1 a env1 ha
                | int i => rfl
                | float i => rfl
                | str i => rfl
                | nil => rfl
                | nativeFunction i j => rfl
                | koxFunction i j k => rfl
                | ret i => rfl
            | none =>
                simp only [callFree, Bool.and_eq_true, Bool.and_true] at hcf
                obtain ⟨hc, ht⟩ := hcf
                simp only [evaluate]
                refine andThen_congr (ih1 cond env hc) fun c env1 => ?_
                cases c with
                | boolean b =>
                    cases b with
                    | true => exact ih1 cons env1 ht
                    | false => rfl
                | int i => rfl
                | float i => rfl
                | str i => rfl
                | nil => rfl
                | nativeFunction i j => rfl
                | koxFunction i j k => rfl
                | ret i => rfl
        | function name parameters body line column => rfl
        | forE name iter body line column => rfl
      · intro es env acc hcf
        cases es with
        | nil => rfl
        | cons e rest =>
            simp only [callFreeList, Bool.and_eq_true] at hcf
            obtain ⟨he, hrest⟩ := hcf
            simp only [evaluateProgram]
            exact progStep_congr (ih1 e env he) fun v env1 =>
              ih2 rest env1 v hrest

/-- C4, witness for the amended theorem. -/
theorem c4_witness :
    callFree (.binary (intLit 1 1 1) .plus (intLit 2 1 3) 1 2) = true
    ∧ evaluate koDefault 5
        (.binary (intLit 1 1 1) .plus (intLit 2 1 3) 1 2) env0 =
      evaluate koRev 5
        (.binary (intLit 1 1 1) .plus (intLit 2 1 3) 1 2) env0 :=
  ⟨by simp [callFree, intLit],
   (c4_amended koDefault koRev 5).1 _ env0 (by simp [callFree, intLit])⟩

/-! ## C8 — semicolon separators and self-delimiting expressions -/

/-- The located error of a parse outcome, if any. -/
def PRes.errInfo {α : Type} : PRes α → Option ParseError
  | .err e _ => some e
  | _ => none

/-- The parsed value of a parse outcome, if any. -/
def PRes.okVal {α : Type} : PRes α → Option α
  | .ok a _ => some a
  | _ => none

/-- Tokens of `{ if true { 1 } 2 }`. -/
def c8BlockToks : List LexedToken :=
  [lx .lbrace 1, lx .ifK 4, lx .trueK 9, lx .lbrace 11, lx (.int 1) 13,
   lx .rbrace 15, lx (.int 2) 17, lx .rbrace 19]

/-- Tokens of `if true { 1 } 2 ;`. -/
def c8TopToks : List LexedToken :=
  [lx .ifK 2, lx .trueK 7, lx .lbrace 9, lx (.int 1) 11, lx .rbrace 13,
   lx (.int 2) 15, lx .semicolon 17]

/-- C8, counterexample.  Claimed: after an `if`/`function`/`for` whose
relevant branch is a block, the parse of a program *or a block* succeeds
without a separator before the next expression.  Inside a block the
`continue` of `push_program!` skips the `nibble(Semicolon)` and leaves
the `semicolon` flag false, so `{ if true { 1 } 2 }` is rejected with
"expected semicolon" — while the same construct followed by another
expression parses fine at top level (`if true { 1 } 2 ;`). -/
theorem c8_counterexample :
    (parseProgramF 50 c8BlockToks).errInfo =
      some ⟨"expected semicolon", 1, 15⟩
    ∧ (parseProgramF 50 c8TopToks).errInfo = none
    ∧ (parseProgramF 50 c8TopToks).okVal.isSome = true := ⟨rfl, rfl, rfl⟩

/-- C8, amended: a separator is required between consecutive expressions,
with the self-delimiting exemption effective only in `parse_program`: at
top level, after an expression that self-delimits (an `if`/`function`/
`for` whose relevant branch is a block) parsing proceeds directly to the
next expression with no semicolon consumed, and after any other
expression a missing semicolon is a located `ParseError`; inside a braced
block, however, a self-delimiting expression must be the *last*
expression of the block — whatever follows it other than `}` (even a
semicolon) is rejected with a located "expected semicolon" error. -/
theorem c8_amended :
    (∀ (fuel : Nat) (s : PState) (program : List Expression)
       (e : Expression) (s1 : PState),
       s.is .eof = false →
       expressionF fuel s = .ok e s1 →
       selfDelim e = true →
       parseProgramLoopF (fuel + 1) s program =
         parseProgramLoopF fuel s1 (program ++ [e]))
    ∧ (∀ (fuel : Nat) (s : PState) (program : List Expression)
       (e : Expression) (s1 : PState),
       s.is .eof = false →
       expressionF fuel s = .ok e s1 →
       selfDelim e = false →
       s1.is .semicolon = false →
       parseProgramLoopF (fuel + 1) s program =
         .err ⟨"expected Semicolon", s1.line, s1.column⟩ s1)
    ∧ (∀ (fuel : Nat) (s : PState) (stmts : List Expression)
       (e : Expression) (s1 : PState),
       s.is .rbrace = false →
       expressionF (fuel + 1) s = .ok e s1 →
       selfDelim e = true →
       s1.is .rbrace = false →
       blockLoopF (fuel + 1 + 1) s stmts true =
         .err ⟨"expected semicolon", s1.line, s1.column⟩ s1) := by
  refine ⟨?_, ?_, ?_⟩
  · intro fuel s program e s1 heof hexp hsd
    simp only [parseProgramLoopF, heof, hexp, hsd]
    simp
  · intro fuel s program e s1 heof hexp hsd hsemi
    simp only [parseProgramLoopF, heof, hexp, hsd]
    simp only [eatF, nibbleF, hsemi]
    simp only [Bool.false_eq_true, if_false]
    rfl
  · intro fuel s stmts e s1 hrb hexp hsd hrb1
    simp only [blockLoopF, hrb, hexp, hsd]
    simp only [blockLoopF, hrb1]
    simp

/-- Tokens of `if true { 1 } 2` (for the C8 witness). -/
def c8IfToks : List LexedToken :=
  [lx .ifK 2, lx .trueK 7, lx .lbrace 9, lx (.int 1) 11, lx .rbrace 13,
   lx (.int 2) 15]

/-- The parser state after parsing `if true { 1 }` out of `c8IfToks`. -/
def c8AfterIf : PState :=
  { stream := [], lookahead := .int 2, line := 1, column := 13,
    lexline := 1, lexcolumn := 15 }

/-- C8, witness for the amended theorem (third conjunct): inside a block,
the fully parsed `if true { 1 }` followed by the token `2` is rejected. -/
theorem c8_witness :
    blockLoopF 21 (mkPState c8IfToks) [] true =
      .err ⟨"expected semicolon", 1, 13⟩ c8AfterIf :=
  c8_amended.2.2 19 (mkPState c8IfToks) []
    (.ifE (.value (.boolean true) 1 2)
      (.block [.value (.int 1) 1 9] 1 13) none 1 13)
    c8AfterIf rfl rfl rfl rfl
